import Mathlib

/-!
Verification of the wikigit repository-sync core: a shallow embedding of
`RepositoryService` (apps/api/app/services/repository_service.py),
`MultiRepoGitService` (apps/api/app/services/multi_repo_git_service.py) and
`SyncScheduler` (apps/api/app/services/sync_scheduler.py), with theorems about
registry CRUD, the sync algorithm, conflict detection, credential redaction,
and the batch scheduler loop.

Git and the filesystem are external to the program; each embedded operation
takes an explicit environment record describing the outcomes of the git calls
it performs (fetch/pull/push/clone succeeding, raising `GitCommandError`, or
raising some other exception) together with the observable git state
(dirty working tree, ahead/behind counts).  The embedding additionally
returns the list of git actions the operation performed, so that claims of
the form "no pull and no push happen" are statements about that trace.
-/

/-! ## Character-list primitives

Python `str.replace`, `str.startswith` and the `in` operator, modelled on
`List Char`.  `replaceList` is fueled so that it computes by kernel reduction;
the fuel is always instantiated with the length of the scanned list, which is
an upper bound for the recursion depth.
-/

/-- Boolean test that `pat` is a prefix of `s` (Python `str.startswith`). -/
def startsWithList : List Char → List Char → Bool
  | [], _ => true
  | _ :: _, [] => false
  | a :: as, b :: bs => if a = b then startsWithList as bs else false

/-- Boolean substring test (Python `pat in s`). -/
def hasSubstring (pat : List Char) : List Char → Bool
  | [] => startsWithList pat []
  | c :: rest => startsWithList pat (c :: rest) || hasSubstring pat rest

/-- Fueled worker for `replaceList`: replace every (non-overlapping,
left-to-right) occurrence of `pat` by `rep`, as Python `str.replace` does. -/
def replaceListAux (pat rep : List Char) : Nat → List Char → List Char
  | 0, s => s
  | _ + 1, [] => []
  | fuel + 1, c :: rest =>
    if 0 < pat.length ∧ startsWithList pat (c :: rest) = true then
      rep ++ replaceListAux pat rep fuel (List.drop (pat.length - 1) rest)
    else
      c :: replaceListAux pat rep fuel rest

/-- Python `s.replace(pat, rep)` on character lists (for nonempty `pat`). -/
def replaceList (pat rep s : List Char) : List Char :=
  replaceListAux pat rep s.length s

theorem startsWithList_iff (pat : List Char) :
    ∀ s : List Char, startsWithList pat s = true ↔ pat <+: s := by
  induction pat with
  | nil => intro s; simp [startsWithList]
  | cons a as ih =>
    intro s
    cases s with
    | nil => simp [startsWithList]
    | cons b bs =>
      by_cases hab : a = b
      · subst hab
        simp [startsWithList, List.cons_prefix_cons, ih]
      · simp [startsWithList, hab, List.cons_prefix_cons]

/-- If a nonempty tail `q` of the pattern (`p0 ++ q = pat`) is a prefix of the
output of the replacement, then it was already a prefix of the input.  The
hypotheses: the pattern and the replacement share no character, and the
replacement is nonempty. -/
theorem replaceListAux_prefix_transfer (pat rep : List Char)
    (hdisj : ∀ c ∈ pat, c ∉ rep) (hrep : rep ≠ []) :
    ∀ fuel s, s.length ≤ fuel → ∀ q p0, p0 ++ q = pat → q ≠ [] →
      q <+: replaceListAux pat rep fuel s → q <+: s := by
  intro fuel
  induction fuel with
  | zero =>
    intro s hs q p0 hq hqne hpre
    have : s = [] := List.length_eq_zero.mp (Nat.le_zero.mp hs)
    subst this
    simpa [replaceListAux] using hpre
  | succ fuel ih =>
    intro s hs q p0 hq hqne hpre
    cases s with
    | nil =>
      simp only [replaceListAux, List.prefix_nil] at hpre
      exact absurd hpre hqne
    | cons c rest =>
      by_cases hmatch : 0 < pat.length ∧ startsWithList pat (c :: rest) = true
      · rw [replaceListAux, if_pos hmatch] at hpre
        obtain ⟨qh, qt, rfl⟩ : ∃ qh qt, q = qh :: qt := by
          cases q with
          | nil => exact absurd rfl hqne
          | cons x xs => exact ⟨x, xs, rfl⟩
        obtain ⟨rh, rt, rfl⟩ : ∃ rh rt, rep = rh :: rt := by
          cases rep with
          | nil => exact absurd rfl hrep
          | cons x xs => exact ⟨x, xs, rfl⟩
        rw [List.cons_append, List.cons_prefix_cons] at hpre
        have hqh_pat : qh ∈ pat := by
          rw [← hq]; exact List.mem_append_right _ (List.mem_cons_self _ _)
        have hqh_rep : qh ∈ rh :: rt := hpre.1 ▸ List.mem_cons_self _ _
        exact absurd hqh_rep (hdisj _ hqh_pat)
      · rw [replaceListAux, if_neg hmatch] at hpre
        obtain ⟨qh, qt, rfl⟩ : ∃ qh qt, q = qh :: qt := by
          cases q with
          | nil => exact absurd rfl hqne
          | cons x xs => exact ⟨x, xs, rfl⟩
        rw [List.cons_prefix_cons] at hpre
        rcases hpre with ⟨rfl, hqt⟩
        by_cases hqt_nil : qt = []
        · subst hqt_nil
          exact (List.cons_prefix_cons).mpr ⟨rfl, List.nil_prefix⟩
        · have hrest : qt <+: rest := by
            refine ih rest (Nat.le_of_succ_le_succ hs) qt (p0 ++ [qh]) ?_ hqt_nil hqt
            rw [List.append_assoc, List.singleton_append, hq]
          exact (List.cons_prefix_cons).mpr ⟨rfl, hrest⟩

/-- Core redaction guarantee: replacing every occurrence of a nonempty pattern
that shares no character with the (nonempty) replacement leaves no occurrence
of the pattern in the output. -/
theorem replaceListAux_no_infix (pat rep : List Char)
    (hpat : pat ≠ []) (hrep : rep ≠ []) (hdisj : ∀ c ∈ pat, c ∉ rep) :
    ∀ fuel s, s.length ≤ fuel → ¬ pat <:+: replaceListAux pat rep fuel s := by
  intro fuel
  induction fuel with
  | zero =>
    intro s hs hinf
    have : s = [] := List.length_eq_zero.mp (Nat.le_zero.mp hs)
    subst this
    simp only [replaceListAux, List.infix_nil] at hinf
    exact hpat hinf
  | succ fuel ih =>
    intro s hs hinf
    cases s with
    | nil =>
      simp only [replaceListAux, List.infix_nil] at hinf
      exact hpat hinf
    | cons c rest =>
      by_cases hmatch : 0 < pat.length ∧ startsWithList pat (c :: rest) = true
      · rw [replaceListAux, if_pos hmatch] at hinf
        obtain ⟨u, v, huv⟩ := hinf
        have hdrop : (List.drop (pat.length - 1) rest).length ≤ fuel := by
          have h1 : rest.length ≤ fuel := Nat.le_of_succ_le_succ hs
          calc (List.drop (pat.length - 1) rest).length ≤ rest.length := by
                simp [List.length_drop]
            _ ≤ fuel := h1
        rw [List.append_assoc] at huv
        rcases List.append_eq_append_iff.mp huv with ⟨a, ha, hbd⟩ | ⟨c', hc, hd⟩
        · cases a with
          | nil =>
            have : pat <:+: replaceListAux pat rep fuel (List.drop (pat.length - 1) rest) := by
              exact ⟨[], v, by simpa using hbd⟩
            exact ih _ hdrop this
          | cons x xs =>
            obtain ⟨p, pt, rfl⟩ : ∃ p pt, pat = p :: pt := by
              cases pat with
              | nil => exact absurd rfl hpat
              | cons y ys => exact ⟨y, ys, rfl⟩
            have hpx : p = x := by
              have := congrArg (fun l => l.head?) hbd
              simpa using this
            have hx_rep : x ∈ rep := ha ▸ List.mem_append_right _ (List.mem_cons_self _ _)
            exact absurd hx_rep (hpx ▸ hdisj p (List.mem_cons_self _ _))
        · have : pat <:+: replaceListAux pat rep fuel (List.drop (pat.length - 1) rest) :=
            ⟨c', v, by simp only [List.append_assoc]; exact hd.symm⟩
          exact ih _ hdrop this
      · have hout : replaceListAux pat rep (fuel + 1) (c :: rest)
            = c :: replaceListAux pat rep fuel rest := by
          rw [replaceListAux, if_neg hmatch]
        rw [hout] at hinf
        obtain ⟨u, v, huv⟩ := hinf
        cases u with
        | nil =>
          have hpre : pat <+: replaceListAux pat rep (fuel + 1) (c :: rest) := by
            rw [hout]; exact ⟨v, by simpa using huv⟩
          have hpre' : pat <+: c :: rest :=
            replaceListAux_prefix_transfer pat rep hdisj hrep (fuel + 1) (c :: rest)
              hs pat [] (by simp) hpat hpre
          have hsw : startsWithList pat (c :: rest) = true :=
            (startsWithList_iff pat (c :: rest)).mpr hpre'
          have hlen : 0 < pat.length := List.length_pos.mpr hpat
          exact hmatch ⟨hlen, hsw⟩
        | cons x xs =>
          simp only [List.cons_append] at huv
          have htail : xs ++ pat ++ v = replaceListAux pat rep fuel rest := by
            have := (List.cons.injEq x (xs ++ (pat ++ v)) c
              (replaceListAux pat rep fuel rest)).mp (by simpa [List.append_assoc] using huv)
            simpa [List.append_assoc] using this.2
          exact ih rest (Nat.le_of_succ_le_succ hs) ⟨xs, v, htail⟩

/-- Redaction guarantee for `replaceList` itself. -/
theorem replaceList_no_infix (pat rep s : List Char)
    (hpat : pat ≠ []) (hrep : rep ≠ []) (hdisj : ∀ c ∈ pat, c ∉ rep) :
    ¬ pat <:+: replaceList pat rep s :=
  replaceListAux_no_infix pat rep hpat hrep hdisj s.length s (Nat.le_refl _)

/-! ## Data model

`RepoRecord` embeds the repository metadata dict built by
`RepositoryService.add_repository`; the registry (`self.repositories`) is an
insertion-ordered map from id to record, embedded as an association list with
Python-dict update semantics (`dictSet`).  `FileState` is the content of the
backing `repositories.json`: missing, unreadable/unparseable, or a parsed
repository map. -/

/-- One repository metadata record (`repo_metadata` in `add_repository`). -/
structure RepoRecord where
  id : String
  name : String
  owner : String
  remote_url : String
  local_path : String
  enabled : Bool
  read_only : Bool
  default_branch : String
  last_synced : Option String
  sync_status : String
  error_message : Option String
  created_at : String
deriving Repr, DecidableEq

/-- Python dict lookup `d.get(k)`. -/
def lookupDict : List (String × RepoRecord) → String → Option RepoRecord
  | [], _ => none
  | (k, v) :: rest, key => if k = key then some v else lookupDict rest key

/-- Python dict assignment `d[k] = v`: replaces in place, or appends. -/
def dictSet : List (String × RepoRecord) → String → RepoRecord → List (String × RepoRecord)
  | [], key, v => [(key, v)]
  | (k, w) :: rest, key, v =>
    if k = key then (key, v) :: rest else (k, w) :: dictSet rest key v

/-- Content of the persisted `repositories.json` backing store. -/
inductive FileState
  | missing
  | corrupt
  | stored (repos : List (String × RepoRecord))
deriving Repr, DecidableEq

/-- In-memory registry plus the persisted backing store. -/
structure RegistryState where
  repositories : List (String × RepoRecord)
  store : FileState
deriving Repr, DecidableEq

/-- Outcome of one call into the git library: success, a raised
`GitCommandError`, or some other raised exception (the two are caught by
different handlers in the source). -/
inductive GitOutcome (α : Type)
  | ok (val : α)
  | gitError (msg : String)
  | exn (msg : String)
deriving Repr, DecidableEq

/-- Git actions an operation performed, in order. -/
inductive GitAction
  | cloneFrom (url : String)
  | fetch
  | mergeRemote
  | pull
  | push
deriving Repr, DecidableEq

/-- Errors that propagate to the caller (`ValueError` for an unknown id,
`GitCommandError` re-raised from clone, any other exception). -/
inductive SvcError
  | notFound (repo_id : String)
  | gitCommandError (msg : String)
  | otherError (msg : String)
deriving Repr, DecidableEq

theorem lookupDict_dictSet_self (reg : List (String × RepoRecord)) (key : String)
    (v : RepoRecord) : lookupDict (dictSet reg key v) key = some v := by
  induction reg with
  | nil => simp [dictSet, lookupDict]
  | cons hd rest ih =>
    obtain ⟨k, w⟩ := hd
    by_cases hk : k = key
    · simp [dictSet, hk, lookupDict]
    · simp [dictSet, hk, lookupDict, ih]

theorem lookupDict_dictSet_other (reg : List (String × RepoRecord)) (key other : String)
    (v : RepoRecord) (h : other ≠ key) :
    lookupDict (dictSet reg key v) other = lookupDict reg other := by
  have hko' : key ≠ other := Ne.symm h
  induction reg with
  | nil => simp [dictSet, lookupDict, hko']
  | cons hd rest ih =>
    obtain ⟨k, w⟩ := hd
    by_cases hk : k = key
    · subst hk
      simp [dictSet, lookupDict, hko']
    · simp only [dictSet, if_neg hk]
      by_cases hko : k = other
      · simp [lookupDict, hko]
      · simp [lookupDict, hko, ih]

/-! ## RepositoryService

Embedding of `apps/api/app/services/repository_service.py`.  Every mutating
operation rewrites the backing store in full (`_save_repositories`). -/

namespace RepositoryService

/-- Embeds `_load_repositories`: an unreadable or unparseable config file is
logged and replaced by the empty registry; the constructor never raises. -/
def load_repositories : FileState → List (String × RepoRecord)
  | .missing => []
  | .corrupt => []
  | .stored repos => repos

/-- Embeds `__init__`: load the registry from the config file, leaving the
file itself untouched. -/
def init (f : FileState) : RegistryState :=
  { repositories := load_repositories f, store := f }

/-- Embeds `_save_repositories`: full rewrite of the backing store. -/
def save_repositories (repos : List (String × RepoRecord)) : FileState :=
  .stored repos

/-- Embeds `add_repository`: builds fresh metadata (sync_status "never",
creation timestamp `now`), stores it under `repo_id` with no duplicate check,
and persists. -/
def add_repository (st : RegistryState) (repo_id name owner remote_url local_path : String)
    (enabled read_only : Bool) (default_branch now : String) :
    RegistryState × RepoRecord :=
  let repo_metadata : RepoRecord :=
    { id := repo_id, name := name, owner := owner, remote_url := remote_url,
      local_path := local_path, enabled := enabled, read_only := read_only,
      default_branch := default_branch, last_synced := none,
      sync_status := "never", error_message := none, created_at := now }
  let repos := dictSet st.repositories repo_id repo_metadata
  ({ repositories := repos, store := save_repositories repos }, repo_metadata)

/-- One key/value pair of the partial-update dict passed to
`update_repository`.  `otherKey k` stands for any pair whose key `k` is
outside the allow-list `{enabled, read_only, name}`; the source ignores such
pairs without looking at their values. -/
inductive UpdateEntry
  | setEnabled (b : Bool)
  | setReadOnly (b : Bool)
  | setName (s : String)
  | otherKey (k : String)
deriving Repr, DecidableEq

/-- Applying one update-dict entry to a record (the body of the
`for key, value in update.items()` loop). -/
def applyUpdate (r : RepoRecord) : UpdateEntry → RepoRecord
  | .setEnabled b => { r with enabled := b }
  | .setReadOnly b => { r with read_only := b }
  | .setName s => { r with name := s }
  | .otherKey _ => r

/-- Embeds `update_repository`: `ValueError` for an unknown id, otherwise
apply the allow-listed fields and persist. -/
def update_repository (st : RegistryState) (repo_id : String)
    (upd : List UpdateEntry) : Except SvcError (RegistryState × RepoRecord) :=
  match lookupDict st.repositories repo_id with
  | none => .error (.notFound repo_id)
  | some repo =>
    let repo := upd.foldl applyUpdate repo
    let repos := dictSet st.repositories repo_id repo
    .ok ({ repositories := repos, store := save_repositories repos }, repo)

/-- Git-level environment for one `sync_repository` attempt.
`has_local_changes` is the dirtiness of the working tree; the source function
never consults it (it calls no `is_dirty`/`untracked_files`).  The commit
identity configuration performed through `config_writer` is effect-free here.
-/
structure RSSyncEnv where
  openResult : GitOutcome Unit
  has_local_changes : Bool
  fetchResult : GitOutcome Unit
  commits_behind : Nat
  pushResult : GitOutcome Nat
deriving Repr, DecidableEq

/-- The result dict returned by `RepositoryService.sync_repository`. -/
structure RSSyncResult where
  repository_id : String
  status : String
  message : String
  commits_pulled : Nat
  commits_pushed : Nat
  files_changed : Nat
deriving Repr, DecidableEq

/-- The outer `except Exception` handler of `sync_repository`: mark the
record `error`, persist, and return an error result. -/
def sync_error_exit (st : RegistryState) (repo_meta : RepoRecord)
    (repo_id now msg : String) (trace : List GitAction) :
    RegistryState × RSSyncResult × List GitAction :=
  let repo : RepoRecord :=
    { repo_meta with sync_status := "error", error_message := some msg,
                     last_synced := some now }
  let repos := dictSet st.repositories repo_id repo
  ({ repositories := repos, store := save_repositories repos },
   { repository_id := repo_id, status := "error",
     message := "Sync failed: " ++ msg,
     commits_pulled := 0, commits_pushed := 0, files_changed := 0 },
   trace)

/-- The success tail of `sync_repository`: mark the record `synced`, persist,
and return a success result (`files_changed` is always 0 in this function).
-/
def sync_success_exit (st : RegistryState) (repo_meta : RepoRecord)
    (repo_id now : String) (commits_pulled commits_pushed : Nat)
    (trace : List GitAction) :
    RegistryState × RSSyncResult × List GitAction :=
  let repo : RepoRecord :=
    { repo_meta with last_synced := some now, sync_status := "synced",
                     error_message := none }
  let repos := dictSet st.repositories repo_id repo
  ({ repositories := repos, store := save_repositories repos },
   { repository_id := repo_id, status := "success",
     message := "Sync completed successfully",
     commits_pulled := commits_pulled, commits_pushed := commits_pushed,
     files_changed := 0 },
   trace)

/-- The push half of `sync_repository`: skipped entirely when the record is
read-only; a `GitCommandError` from push is logged and swallowed; any other
exception reaches the outer handler. -/
def sync_push_phase (st : RegistryState) (repo_meta : RepoRecord)
    (repo_id now : String) (env : RSSyncEnv) (commits_pulled : Nat)
    (trace : List GitAction) :
    RegistryState × RSSyncResult × List GitAction :=
  if repo_meta.read_only then
    sync_success_exit st repo_meta repo_id now commits_pulled 0 trace
  else
    match env.pushResult with
    | .gitError _ =>
      sync_success_exit st repo_meta repo_id now commits_pulled 0
        (trace ++ [.push])
    | .exn m => sync_error_exit st repo_meta repo_id now m (trace ++ [.push])
    | .ok n =>
      sync_success_exit st repo_meta repo_id now commits_pulled n
        (trace ++ [.push])

/-- Embeds `RepositoryService.sync_repository`.  The pull half fetches and
then moves the local branch ref onto the remote head when commits are behind;
a `GitCommandError` during it is logged and swallowed (the attempt continues
and still ends `synced`), while any other exception reaches the outer
handler.  There is no conflict detection in this function. -/
def sync_repository (st : RegistryState) (repo_id now : String)
    (env : RSSyncEnv) :
    Except SvcError (RegistryState × RSSyncResult × List GitAction) :=
  match lookupDict st.repositories repo_id with
  | none => .error (.notFound repo_id)
  | some repo_meta =>
    .ok <|
      match env.openResult with
      | .gitError m => sync_error_exit st repo_meta repo_id now m []
      | .exn m => sync_error_exit st repo_meta repo_id now m []
      | .ok _ =>
        match env.fetchResult with
        | .exn m => sync_error_exit st repo_meta repo_id now m [.fetch]
        | .gitError _ => sync_push_phase st repo_meta repo_id now env 0 [.fetch]
        | .ok _ =>
          let commits_pulled := env.commits_behind
          let trace :=
            if 0 < commits_pulled then [GitAction.fetch, .mergeRemote]
            else [GitAction.fetch]
          sync_push_phase st repo_meta repo_id now env commits_pulled trace

/-- Git-level environment for `clone_repository`.  `existsLocally` records
whether the destination already contains a valid clone; the source function
never checks it. -/
structure RSCloneEnv where
  existsLocally : Bool
  cloneResult : GitOutcome Unit
deriving Repr, DecidableEq

/-- The token-injected clone URL of `clone_repository`: only when a token is
truthy and the remote URL contains "github.com". -/
def clone_url_rs (github_token : Option String) (remote_url : String) : String :=
  match github_token with
  | none => remote_url
  | some tok =>
    if tok = "" then remote_url
    else if hasSubstring "github.com".data remote_url.data then
      String.mk (replaceList "https://github.com".data
        ("https://" ++ tok ++ "@github.com").data remote_url.data)
    else remote_url

/-- Embeds `RepositoryService.clone_repository`: inject the token, attempt a
fresh clone unconditionally, and on success register the repository with the
defaults of `add_repository` (enabled False, read_only True).  A
`GitCommandError` is logged with its raw message and re-raised; other
exceptions propagate as well. -/
def clone_repository (st : RegistryState)
    (repo_id remote_url local_path name owner default_branch : String)
    (github_token : Option String) (now : String) (env : RSCloneEnv) :
    Except SvcError (RegistryState × RepoRecord) × List GitAction :=
  let clone_url := clone_url_rs github_token remote_url
  match env.cloneResult with
  | .gitError m => (.error (.gitCommandError m), [.cloneFrom clone_url])
  | .exn m => (.error (.otherError m), [.cloneFrom clone_url])
  | .ok _ =>
    let reg := add_repository st repo_id name owner remote_url local_path
      false true default_branch now
    (.ok reg, [.cloneFrom clone_url])

end RepositoryService

/-! ## MultiRepoGitService

Embedding of `apps/api/app/services/multi_repo_git_service.py`.  This service
performs conflict detection and token sanitization but never mutates the
registry: its operations return result dicts only. -/

namespace MultiRepoGitService

/-- Repository configuration (`RepositoryConfig` in `app/config/settings.py`);
the fields the service consults. -/
structure RepositoryConfig where
  id : String
  name : String
  owner : String
  remote_url : String
  local_path : String
  enabled : Bool
  read_only : Bool
  default_branch : String
deriving Repr, DecidableEq

/-- The effective GitHub token: both `self.settings.github` being configured
and its token being truthy (Python: a missing environment variable yields
None, an empty one is falsy). -/
def active_token (github_token : Option String) : Option String :=
  match github_token with
  | none => none
  | some t => if t = "" then none else some t

/-- Embeds `_inject_token_into_url`. -/
def inject_token_into_url (github_token : Option String) (remote_url : String) :
    String :=
  match active_token github_token with
  | none => remote_url
  | some token =>
    if startsWithList "https://github.com".data remote_url.data then
      String.mk (replaceList "https://github.com".data
        ("https://" ++ token ++ "@github.com").data remote_url.data)
    else if startsWithList "https://".data remote_url.data then
      String.mk (replaceList "https://".data
        ("https://" ++ token ++ "@").data remote_url.data)
    else remote_url

/-- Embeds `_sanitize_error_message`: replace every occurrence of the literal
token by the redaction marker. -/
def sanitize_error_message (github_token : Option String) (error_msg : String) :
    String :=
  match active_token github_token with
  | none => error_msg
  | some token =>
    String.mk (replaceList token.data "***TOKEN***".data error_msg.data)

/-- Git-level environment for `clone_repository`. -/
structure MRCloneEnv where
  existsLocally : Bool
  cloneResult : GitOutcome Unit
deriving Repr, DecidableEq

/-- Embeds `MultiRepoGitService.clone_repository`: returns success without
cloning when the local path already holds a `.git` directory; otherwise
clones with the token-injected URL.  A `GitCommandError` message is
sanitized; any other exception message is returned raw. -/
def clone_repository (github_token : Option String) (cfg : RepositoryConfig)
    (env : MRCloneEnv) : (Bool × Option String) × List GitAction :=
  if env.existsLocally then ((true, none), [])
  else
    let auth_url := inject_token_into_url github_token cfg.remote_url
    match env.cloneResult with
    | .ok _ => ((true, none), [.cloneFrom auth_url])
    | .gitError m =>
      ((false, some (sanitize_error_message github_token m)), [.cloneFrom auth_url])
    | .exn m => ((false, some m), [.cloneFrom auth_url])

/-- Git-level environment for one `sync_repository` attempt.
`trackingResult` is the `active_branch.tracking_branch()` lookup: `ok true`
when a tracking branch is configured, `ok false` when none is, and an
exception when the lookup raises. -/
structure MRSyncEnv where
  existsLocally : Bool
  openResult : GitOutcome Unit
  fetchResult : GitOutcome Unit
  has_local_changes : Bool
  trackingResult : GitOutcome Bool
  commits_behind : Nat
  commits_ahead : Nat
  pullResult : GitOutcome Nat
  pushResult : GitOutcome Unit
deriving Repr, DecidableEq

/-- The result dict of `MultiRepoGitService.sync_repository`. -/
structure MRSyncResult where
  status : String
  message : String
  commits_pulled : Nat
  commits_pushed : Nat
  files_changed : Nat
  error_message : Option String
deriving Repr, DecidableEq

/-- Helper building a result dict. -/
def mk_result (status message : String) (pulled pushed fc : Nat)
    (em : Option String) : MRSyncResult :=
  { status := status, message := message, commits_pulled := pulled,
    commits_pushed := pushed, files_changed := fc, error_message := em }

/-- The success tail of `sync_repository`. -/
def success_result (pulled pushed fc : Nat) : MRSyncResult :=
  let message :=
    if pulled = 0 ∧ pushed = 0 then "Repository is up to date"
    else "Synced successfully: " ++ toString pulled ++ " pulled, "
      ++ toString pushed ++ " pushed"
  mk_result "success" message pulled pushed fc none

/-- The push step of `sync_repository`: only when commits are ahead and the
repository is not read-only; a read-only skip is logged at info level and is
not an error. -/
def push_phase (github_token : Option String) (cfg : RepositoryConfig)
    (env : MRSyncEnv) (commits_pulled files_changed : Nat)
    (trace : List GitAction) : MRSyncResult × List GitAction :=
  if 0 < env.commits_ahead ∧ cfg.read_only = false then
    match env.pushResult with
    | .gitError m =>
      (mk_result "error" "Push failed" commits_pulled 0 files_changed
        (some (sanitize_error_message github_token m)), trace ++ [.push])
    | .exn m =>
      (mk_result "error" "Sync failed" 0 0 0 (some m), trace ++ [.push])
    | .ok _ =>
      (success_result commits_pulled env.commits_ahead files_changed,
       trace ++ [.push])
  else (success_result commits_pulled 0 files_changed, trace)

/-- The pull step of `sync_repository`: only when commits are behind. -/
def pull_phase (github_token : Option String) (cfg : RepositoryConfig)
    (env : MRSyncEnv) : MRSyncResult × List GitAction :=
  if 0 < env.commits_behind then
    match env.pullResult with
    | .gitError m =>
      (mk_result "error" "Pull failed" 0 0 0
        (some (sanitize_error_message github_token m)), [.fetch, .pull])
    | .exn m => (mk_result "error" "Sync failed" 0 0 0 (some m), [.fetch, .pull])
    | .ok fc =>
      push_phase github_token cfg env env.commits_behind fc [.fetch, .pull]
  else push_phase github_token cfg env 0 0 [.fetch]

/-- Embeds `MultiRepoGitService.sync_repository`: exists check, fetch with the
token-injected remote, conflict detection (local changes AND commits behind
yield `conflict` before any pull or push), then pull and push. -/
def sync_repository (github_token : Option String) (cfg : RepositoryConfig)
    (env : MRSyncEnv) : MRSyncResult × List GitAction :=
  if env.existsLocally = false then
    (mk_result "error" "Repository not cloned locally" 0 0 0
      (some "Local repository does not exist. Clone it first."), [])
  else
    match env.openResult with
    | .gitError m =>
      (mk_result "error" "Git operation failed" 0 0 0
        (some (sanitize_error_message github_token m)), [])
    | .exn m => (mk_result "error" "Sync failed" 0 0 0 (some m), [])
    | .ok _ =>
      match env.fetchResult with
      | .gitError m =>
        (mk_result "error" "Git operation failed" 0 0 0
          (some (sanitize_error_message github_token m)), [.fetch])
      | .exn m => (mk_result "error" "Sync failed" 0 0 0 (some m), [.fetch])
      | .ok _ =>
        match env.trackingResult with
        | .gitError m =>
          (mk_result "error" "Failed to get tracking branch" 0 0 0 (some m),
           [.fetch])
        | .exn m =>
          (mk_result "error" "Failed to get tracking branch" 0 0 0 (some m),
           [.fetch])
        | .ok false =>
          (mk_result "error" "No tracking branch configured" 0 0 0
            (some "Branch has no remote tracking branch"), [.fetch])
        | .ok true =>
          if env.has_local_changes = true ∧ 0 < env.commits_behind then
            (mk_result "conflict"
              "Conflict detected: local and remote changes present" 0 0 0
              (some ("Cannot sync: repository has both local uncommitted "
                ++ "changes and remote updates. Please resolve manually.")),
             [.fetch])
          else pull_phase github_token cfg env

end MultiRepoGitService

/-! ## SyncScheduler

Embedding of `_sync_all_repositories` in
`apps/api/app/services/sync_scheduler.py`: list the registry, keep the
enabled records, sync each in order inside a per-repository `try`, and count
successes and errors.  `SchedOutcome` is what one `sync_repository` call does
for a given repository id: return a result dict, or raise. -/

namespace SyncScheduler

/-- Outcome of the `sync_repository` call for one repository. -/
inductive SchedOutcome
  | result (r : RepositoryService.RSSyncResult)
  | raises (msg : String)
deriving Repr, DecidableEq

/-- Whether the loop body counts this outcome in `error_count`: a raised
exception, or a returned status other than "success". -/
def outcomeIsError : SchedOutcome → Bool
  | .result r => decide (r.status ≠ "success")
  | .raises _ => true

/-- The per-repository loop of `_sync_all_repositories`, returning
(success_count, error_count, ids for which sync was invoked, in order). -/
def sync_loop (outcome : String → SchedOutcome) :
    List RepoRecord → Nat × Nat × List String
  | [] => (0, 0, [])
  | repo :: rest =>
    let tail := sync_loop outcome rest
    match outcome repo.id with
    | .raises _ => (tail.1, tail.2.1 + 1, repo.id :: tail.2.2)
    | .result r =>
      if r.status = "success" then (tail.1 + 1, tail.2.1, repo.id :: tail.2.2)
      else (tail.1, tail.2.1 + 1, repo.id :: tail.2.2)

/-- Embeds `_sync_all_repositories`: filter for enabled repositories, then
run the loop. -/
def sync_all_repositories (repos : List RepoRecord)
    (outcome : String → SchedOutcome) : Nat × Nat × List String :=
  sync_loop outcome (repos.filter (fun r => r.enabled))

theorem sync_loop_invoked (outcome : String → SchedOutcome) :
    ∀ l : List RepoRecord, (sync_loop outcome l).2.2 = l.map (fun r => r.id) := by
  intro l
  induction l with
  | nil => simp [sync_loop]
  | cons repo rest ih =>
    simp only [sync_loop, List.map_cons]
    cases houtcome : outcome repo.id with
    | raises m => simpa using ih
    | result r =>
      by_cases hs : r.status = "success"
      · simp [hs, ih]
      · simp [hs, ih]

theorem sync_loop_error_count (outcome : String → SchedOutcome) :
    ∀ l : List RepoRecord,
      (sync_loop outcome l).2.1
        = (l.filter (fun r => outcomeIsError (outcome r.id))).length := by
  intro l
  induction l with
  | nil => simp [sync_loop]
  | cons repo rest ih =>
    simp only [sync_loop]
    cases houtcome : outcome repo.id with
    | raises m =>
      simp [List.filter_cons, houtcome, outcomeIsError, ih]
    | result r =>
      by_cases hs : r.status = "success"
      · simp [List.filter_cons, houtcome, outcomeIsError, hs, ih]
      · simp [List.filter_cons, houtcome, outcomeIsError, hs, ih]

end SyncScheduler

/-! ## Fixtures

Concrete sample data used by counterexamples and witnesses. -/

/-- A sample registered record. -/
def sampleRecord (enabled read_only : Bool) (sync_status : String) : RepoRecord :=
  { id := "docs", name := "Docs", owner := "acme",
    remote_url := "https://github.com/acme/docs", local_path := "repos/docs",
    enabled := enabled, read_only := read_only, default_branch := "main",
    last_synced := none, sync_status := sync_status, error_message := none,
    created_at := "2025-01-01T00:00:00" }

/-- A registry state holding exactly the one sample record, persisted. -/
def sampleState (enabled read_only : Bool) (sync_status : String) : RegistryState :=
  { repositories := [("docs", sampleRecord enabled read_only sync_status)],
    store := .stored [("docs", sampleRecord enabled read_only sync_status)] }

/-- A sample repository configuration for `MultiRepoGitService`. -/
def sampleCfg : MultiRepoGitService.RepositoryConfig :=
  { id := "acme-wiki", name := "wiki", owner := "acme",
    remote_url := "https://github.com/acme/wiki", local_path := "acme/wiki",
    enabled := true, read_only := true, default_branch := "main" }

/-! ## C1: the conflict rule -/

/-- C1, counterexample.  The claim quantifies over every sync entry point; on
`RepositoryService.sync_repository` (one of its two named sources) it fails:
with a dirty working tree (`has_local_changes = true`, a fact of the git
state the function never consults) and one commit behind, the function moves
the local branch onto the remote head (`mergeRemote` in the trace), returns
status "success" instead of "conflict" with `commits_pulled = 1`, and sets
the record's `sync_status` to "synced". -/
theorem C1_counterexample :
    (RepositoryService.sync_repository (sampleState true true "never") "docs"
        "2026-02-01T00:00:00"
        { openResult := .ok (), has_local_changes := true,
          fetchResult := .ok (), commits_behind := 1, pushResult := .ok 0 }).map
      (fun out =>
        (out.2.1.status, out.2.1.commits_pulled,
         (lookupDict out.1.repositories "docs").map (fun r => r.sync_status),
         out.2.2))
      = .ok ("success", 1, some "synced", [GitAction.fetch, .mergeRemote]) := by
  rfl

/-- C1 (amended): the conflict rule holds of
`MultiRepoGitService.sync_repository`: when the clone exists, fetch and the
tracking-branch lookup succeed, the working tree has local changes and the
branch is strictly behind, the function returns status "conflict" with zero
commits pulled and pushed, performs no pull and no push, and (by its type:
it returns only the result dict) mutates no registry record. -/
theorem C1_conflict_rule_amended (github_token : Option String)
    (cfg : MultiRepoGitService.RepositoryConfig)
    (env : MultiRepoGitService.MRSyncEnv)
    (hex : env.existsLocally = true) (hopen : env.openResult = .ok ())
    (hfetch : env.fetchResult = .ok ()) (htrack : env.trackingResult = .ok true)
    (hlocal : env.has_local_changes = true) (hbehind : 0 < env.commits_behind) :
    (MultiRepoGitService.sync_repository github_token cfg env).1.status = "conflict"
    ∧ (MultiRepoGitService.sync_repository github_token cfg env).1.commits_pulled = 0
    ∧ (MultiRepoGitService.sync_repository github_token cfg env).1.commits_pushed = 0
    ∧ GitAction.pull ∉ (MultiRepoGitService.sync_repository github_token cfg env).2
    ∧ GitAction.push ∉ (MultiRepoGitService.sync_repository github_token cfg env).2 := by
  simp only [MultiRepoGitService.sync_repository, hex, hopen, hfetch, htrack,
    hlocal, hbehind, MultiRepoGitService.mk_result, Bool.true_eq_false,
    if_false, true_and, and_true, if_pos]
  exact ⟨by decide, by decide⟩

/-- C1, witness for the amended theorem at a concrete conflicted state. -/
theorem C1_witness :
    (MultiRepoGitService.sync_repository none sampleCfg
        { existsLocally := true, openResult := .ok (), fetchResult := .ok (),
          has_local_changes := true, trackingResult := .ok true,
          commits_behind := 1, commits_ahead := 0, pullResult := .ok 0,
          pushResult := .ok () }).1.status = "conflict"
    ∧ (MultiRepoGitService.sync_repository none sampleCfg
        { existsLocally := true, openResult := .ok (), fetchResult := .ok (),
          has_local_changes := true, trackingResult := .ok true,
          commits_behind := 1, commits_ahead := 0, pullResult := .ok 0,
          pushResult := .ok () }).1.commits_pulled = 0
    ∧ (MultiRepoGitService.sync_repository none sampleCfg
        { existsLocally := true, openResult := .ok (), fetchResult := .ok (),
          has_local_changes := true, trackingResult := .ok true,
          commits_behind := 1, commits_ahead := 0, pullResult := .ok 0,
          pushResult := .ok () }).1.commits_pushed = 0
    ∧ GitAction.pull ∉ (MultiRepoGitService.sync_repository none sampleCfg
        { existsLocally := true, openResult := .ok (), fetchResult := .ok (),
          has_local_changes := true, trackingResult := .ok true,
          commits_behind := 1, commits_ahead := 0, pullResult := .ok 0,
          pushResult := .ok () }).2
    ∧ GitAction.push ∉ (MultiRepoGitService.sync_repository none sampleCfg
        { existsLocally := true, openResult := .ok (), fetchResult := .ok (),
          has_local_changes := true, trackingResult := .ok true,
          commits_behind := 1, commits_ahead := 0, pullResult := .ok 0,
          pushResult := .ok () }).2 :=
  C1_conflict_rule_amended none sampleCfg _ rfl rfl rfl rfl rfl (by decide)

/-! ## C2: failure paths mark the record error -/

/-- C2, counterexample.  In `RepositoryService.sync_repository` a fetch
failure raising `GitCommandError` is caught by the inner handler, logged and
swallowed: the attempt continues, returns status "success", and marks the
record `sync_status = "synced"` with `error_message = None` — contradicting
the claim that a fetch failure terminates with "error" and never yields
"synced". -/
theorem C2_counterexample :
    (RepositoryService.sync_repository (sampleState true true "never") "docs"
        "2026-02-01T00:00:00"
        { openResult := .ok (), has_local_changes := false,
          fetchResult := .gitError "fetch failed: network unreachable",
          commits_behind := 0, pushResult := .ok 0 }).map
      (fun out =>
        (out.2.1.status,
         (lookupDict out.1.repositories "docs").map
           (fun r => (r.sync_status, r.error_message))))
      = .ok ("success", some ("synced", none)) := by
  rfl

/-- C2 (amended).  Part one: in `RepositoryService.sync_repository`, only an
exception that is not a `GitCommandError` caught by the per-operation
handlers — here, a fetch failure raising a non-`GitCommandError` — reaches
the outer handler, which terminates the attempt with status "error" and
updates the record to `sync_status = "error"`, a non-null `error_message`
and `last_synced` set to the attempt time.  A `GitCommandError` from fetch
or push is swallowed and the attempt ends with the record marked "synced"
(see the counterexample).  Part two: in
`MultiRepoGitService.sync_repository` any fetch failure raising
`GitCommandError` yields a status-"error" result with a non-null sanitized
`error_message`; that service never updates the registry record. -/
theorem C2_error_path_amended :
    (∀ (st : RegistryState) (repo_id now : String)
       (env : RepositoryService.RSSyncEnv) (repo : RepoRecord) (m : String),
       lookupDict st.repositories repo_id = some repo →
       env.openResult = .ok () → env.fetchResult = .exn m →
       ∃ st' res tr r',
         RepositoryService.sync_repository st repo_id now env = .ok (st', res, tr)
         ∧ res.status = "error"
         ∧ lookupDict st'.repositories repo_id = some r'
         ∧ r'.sync_status = "error" ∧ r'.error_message = some m
         ∧ r'.last_synced = some now)
    ∧ (∀ (token : Option String) (cfg : MultiRepoGitService.RepositoryConfig)
         (env : MultiRepoGitService.MRSyncEnv) (m : String),
         env.existsLocally = true → env.openResult = .ok () →
         env.fetchResult = .gitError m →
         (MultiRepoGitService.sync_repository token cfg env).1.status = "error"
         ∧ (MultiRepoGitService.sync_repository token cfg env).1.error_message
             = some (MultiRepoGitService.sanitize_error_message token m)) := by
  constructor
  · intro st repo_id now env repo m hlk hopen hfetch
    have heq : RepositoryService.sync_repository st repo_id now env
        = .ok (RepositoryService.sync_error_exit st repo repo_id now m
            [.fetch]) := by
      simp only [RepositoryService.sync_repository, hlk, hopen, hfetch]
    refine ⟨_, _, _,
      { repo with sync_status := "error", error_message := some m,
                  last_synced := some now },
      heq, rfl, ?_, rfl, rfl, rfl⟩
    exact lookupDict_dictSet_self _ _ _
  · intro token cfg env m hex hopen hfetch
    have heq : MultiRepoGitService.sync_repository token cfg env
        = (MultiRepoGitService.mk_result "error" "Git operation failed" 0 0 0
            (some (MultiRepoGitService.sanitize_error_message token m)),
           [.fetch]) := by
      simp only [MultiRepoGitService.sync_repository, hex, hopen, hfetch,
        Bool.true_eq_false, if_false]
    rw [heq]
    exact ⟨rfl, rfl⟩

/-- C2, witness: both parts of the amended theorem at concrete failing
fetches. -/
theorem C2_witness :
    (∃ st' res tr r',
       RepositoryService.sync_repository (sampleState true true "never") "docs"
           "2026-03-01T00:00:00"
           { openResult := .ok (), has_local_changes := false,
             fetchResult := .exn "fetch blew up", commits_behind := 0,
             pushResult := .ok 0 }
         = .ok (st', res, tr)
       ∧ res.status = "error"
       ∧ lookupDict st'.repositories "docs" = some r'
       ∧ r'.sync_status = "error" ∧ r'.error_message = some "fetch blew up"
       ∧ r'.last_synced = some "2026-03-01T00:00:00")
    ∧ ((MultiRepoGitService.sync_repository none sampleCfg
          { existsLocally := true, openResult := .ok (),
            fetchResult := .gitError "fetch refused",
            has_local_changes := false, trackingResult := .ok true,
            commits_behind := 0, commits_ahead := 0, pullResult := .ok 0,
            pushResult := .ok () }).1.status = "error"
        ∧ (MultiRepoGitService.sync_repository none sampleCfg
            { existsLocally := true, openResult := .ok (),
              fetchResult := .gitError "fetch refused",
              has_local_changes := false, trackingResult := .ok true,
              commits_behind := 0, commits_ahead := 0, pullResult := .ok 0,
              pushResult := .ok () }).1.error_message
          = some (MultiRepoGitService.sanitize_error_message none "fetch refused")) :=
  ⟨C2_error_path_amended.1 (sampleState true true "never") "docs"
      "2026-03-01T00:00:00" _ (sampleRecord true true "never") "fetch blew up"
      (by decide) rfl rfl,
   C2_error_path_amended.2 none sampleCfg _ "fetch refused" rfl rfl rfl⟩

/-! ## C3: token redaction -/

/-- The `GitCommandError` text git produces when the clone of the
counterexample fails: GitPython embeds the executed command, which carries
the credential-injected URL. -/
def cloneFailureMsg : String :=
  "Cmd git clone https://tok123@github.com/acme/wiki failed: exit code 128"

/-- C3, counterexample.  `RepositoryService.clone_repository` injects the
token into the clone URL but has no sanitizer: when the clone raises a
`GitCommandError` whose text carries the injected URL (as GitPython's
command echo does), the service logs that text and re-raises it to the
caller verbatim, so the surfaced message contains the token "tok123" as a
substring. -/
theorem C3_counterexample :
    RepositoryService.clone_url_rs (some "tok123") "https://github.com/acme/wiki"
      = "https://tok123@github.com/acme/wiki"
    ∧ (RepositoryService.clone_repository (RepositoryService.init .missing)
        "acme-wiki" "https://github.com/acme/wiki" "repos/acme-wiki" "wiki"
        "acme" "main" (some "tok123") "2026-01-01T00:00:00"
        { existsLocally := true, cloneResult := .gitError cloneFailureMsg }).1
      = .error (.gitCommandError cloneFailureMsg)
    ∧ "tok123".data <:+: cloneFailureMsg.data := by
  refine ⟨by decide, rfl, by decide⟩

/-- C3 (amended).  Only `MultiRepoGitService` sanitizes, and only on its
`GitCommandError` paths: there the error message is the input text with
every occurrence of the token replaced by "***TOKEN***", and the result of
the sanitizer contains no occurrence of the token provided the token is
nonempty and shares no character with the marker (GitHub tokens, which are
alphanumeric with underscores, satisfy this).  `RepositoryService` error
paths and the generic-exception paths surface the raw text (see the
counterexample). -/
theorem C3_redaction_amended (token : String)
    (cfg : MultiRepoGitService.RepositoryConfig)
    (env : MultiRepoGitService.MRCloneEnv) (m : String)
    (htok : token.data ≠ [])
    (hdisj : ∀ c ∈ token.data, c ∉ "***TOKEN***".data)
    (hex : env.existsLocally = false) (hclone : env.cloneResult = .gitError m) :
    (MultiRepoGitService.clone_repository (some token) cfg env).1
      = (false, some (MultiRepoGitService.sanitize_error_message (some token) m))
    ∧ ¬ token.data <:+:
        (MultiRepoGitService.sanitize_error_message (some token) m).data := by
  have htok' : token ≠ "" := by
    intro h
    subst h
    exact htok rfl
  constructor
  · simp only [MultiRepoGitService.clone_repository, hex, Bool.false_eq_true,
      if_false, hclone]
  · have hact : MultiRepoGitService.active_token (some token) = some token := by
      simp [MultiRepoGitService.active_token, htok']
    have hsan : MultiRepoGitService.sanitize_error_message (some token) m
        = String.mk (replaceList token.data "***TOKEN***".data m.data) := by
      simp [MultiRepoGitService.sanitize_error_message, hact]
    rw [hsan]
    have hmarker : "***TOKEN***".data ≠ [] := by decide
    exact replaceList_no_infix token.data "***TOKEN***".data m.data htok hmarker hdisj

/-- C3, witness: a concrete alphanumeric token and a failing clone whose git
error text embeds the token-bearing URL; the sanitized message redacts it. -/
theorem C3_witness :
    (MultiRepoGitService.clone_repository (some "ghp999") sampleCfg
        { existsLocally := false,
          cloneResult := .gitError "auth failed for https://ghp999@github.com/acme/wiki" }).1
      = (false, some (MultiRepoGitService.sanitize_error_message (some "ghp999")
          "auth failed for https://ghp999@github.com/acme/wiki"))
    ∧ ¬ "ghp999".data <:+:
        (MultiRepoGitService.sanitize_error_message (some "ghp999")
          "auth failed for https://ghp999@github.com/acme/wiki").data :=
  C3_redaction_amended "ghp999" sampleCfg _
    "auth failed for https://ghp999@github.com/acme/wiki"
    (by decide) (by decide) rfl rfl

/-! ## C4: adding a duplicate id -/

/-- C4, counterexample.  `add_repository` performs no duplicate check and
raises no `DuplicateIdError`; it is total and, called with an id already in
the registry, overwrites the existing record with fresh metadata (the prior
"synced" status becomes "never") and rewrites the persisted store — the
existing record and the store are not left unchanged. -/
theorem C4_counterexample :
    lookupDict (sampleState true false "synced").repositories "docs"
      = some (sampleRecord true false "synced")
    ∧ (RepositoryService.add_repository (sampleState true false "synced")
        "docs" "Docs" "acme" "https://github.com/acme/docs" "repos/docs"
        false true "main" "2026-02-02T00:00:00").1.repositories
      ≠ (sampleState true false "synced").repositories
    ∧ (RepositoryService.add_repository (sampleState true false "synced")
        "docs" "Docs" "acme" "https://github.com/acme/docs" "repos/docs"
        false true "main" "2026-02-02T00:00:00").1.store
      ≠ (sampleState true false "synced").store
    ∧ (lookupDict (RepositoryService.add_repository
        (sampleState true false "synced")
        "docs" "Docs" "acme" "https://github.com/acme/docs" "repos/docs"
        false true "main" "2026-02-02T00:00:00").1.repositories "docs").map
        (fun r => r.sync_status)
      = some "never" := by
  refine ⟨rfl, by decide, by decide, rfl⟩

/-- C4 (amended): for an id already present, `add_repository` succeeds
silently, replacing the existing record with freshly constructed metadata
(`sync_status = "never"`, `created_at` = now, no last_synced, no error
message) and rewriting the persisted store in full; records under other ids
are untouched. -/
theorem C4_add_overwrites_amended (st : RegistryState)
    (repo_id name owner remote_url local_path default_branch now : String)
    (enabled read_only : Bool) (old : RepoRecord)
    (_hdup : lookupDict st.repositories repo_id = some old) :
    ∃ st' rec,
      RepositoryService.add_repository st repo_id name owner remote_url
          local_path enabled read_only default_branch now = (st', rec)
      ∧ lookupDict st'.repositories repo_id = some rec
      ∧ rec.sync_status = "never" ∧ rec.created_at = now
      ∧ rec.last_synced = none ∧ rec.error_message = none
      ∧ st'.store = .stored st'.repositories
      ∧ ∀ other, other ≠ repo_id →
          lookupDict st'.repositories other = lookupDict st.repositories other := by
  refine ⟨_, _, rfl, lookupDict_dictSet_self _ _ _, rfl, rfl, rfl, rfl, rfl,
    fun other hother => lookupDict_dictSet_other _ _ _ _ hother⟩

/-- C4, witness for the amended theorem at the concrete duplicate add. -/
theorem C4_witness :
    ∃ st' rec,
      RepositoryService.add_repository (sampleState true false "synced")
          "docs" "Docs" "acme" "https://github.com/acme/docs" "repos/docs"
          false true "main" "2026-02-02T00:00:00" = (st', rec)
      ∧ lookupDict st'.repositories "docs" = some rec
      ∧ rec.sync_status = "never" ∧ rec.created_at = "2026-02-02T00:00:00"
      ∧ rec.last_synced = none ∧ rec.error_message = none
      ∧ st'.store = .stored st'.repositories
      ∧ ∀ other, other ≠ "docs" →
          lookupDict st'.repositories other
            = lookupDict (sampleState true false "synced").repositories other :=
  C4_add_overwrites_amended (sampleState true false "synced") "docs" "Docs"
    "acme" "https://github.com/acme/docs" "repos/docs" "main"
    "2026-02-02T00:00:00" false true (sampleRecord true false "synced") (by decide)

/-! ## C5: clone idempotence -/

/-- C5, counterexample.  The claim quantifies over both clone entry points;
on `RepositoryService.clone_repository` (one of its two named sources) it
fails: the function never checks whether the local path already holds a
valid clone, and invokes `Repo.clone_from` unconditionally.  Against a
destination that already contains a clone, git refuses and the call raises
the `GitCommandError` instead of returning success — and the clone was
attempted (`cloneFrom` is in the trace). -/
theorem C5_counterexample :
    (RepositoryService.clone_repository (sampleState true true "synced")
        "docs" "https://github.com/acme/docs" "repos/docs" "Docs" "acme"
        "main" none "2026-02-03T00:00:00"
        { existsLocally := true,
          cloneResult := .gitError
            "fatal: destination path exists and is not an empty directory" })
      = (.error (.gitCommandError
          "fatal: destination path exists and is not an empty directory"),
         [.cloneFrom "https://github.com/acme/docs"]) := by
  rfl

/-- C5 (amended).  Part one: `MultiRepoGitService.clone_repository` is
idempotent as the claim states — when the local path already holds a `.git`
directory it returns success immediately, performs no clone, and (returning
only a pair) touches no record, so `sync_status` is unchanged.  Part two:
`RepositoryService.clone_repository` is not: even when its unconditional
re-clone succeeds, it performs a fresh `clone_from` and re-registers the
repository, resetting the record's `sync_status` to "never". -/
theorem C5_clone_idempotence_amended :
    (∀ (token : Option String) (cfg : MultiRepoGitService.RepositoryConfig)
       (env : MultiRepoGitService.MRCloneEnv), env.existsLocally = true →
       MultiRepoGitService.clone_repository token cfg env = ((true, none), []))
    ∧ (∀ (st : RegistryState)
         (repo_id remote_url local_path name owner default_branch now : String)
         (token : Option String) (env : RepositoryService.RSCloneEnv)
         (old : RepoRecord),
         lookupDict st.repositories repo_id = some old →
         env.cloneResult = .ok () →
         ∃ st' rec,
           RepositoryService.clone_repository st repo_id remote_url local_path
               name owner default_branch token now env
             = (.ok (st', rec),
                [.cloneFrom (RepositoryService.clone_url_rs token remote_url)])
           ∧ lookupDict st'.repositories repo_id = some rec
           ∧ rec.sync_status = "never") := by
  constructor
  · intro token cfg env hex
    simp [MultiRepoGitService.clone_repository, hex]
  · intro st repo_id remote_url local_path name owner default_branch now token
      env old hold hclone
    have heq : RepositoryService.clone_repository st repo_id remote_url
        local_path name owner default_branch token now env
        = (.ok (RepositoryService.add_repository st repo_id name owner
            remote_url local_path false true default_branch now),
           [.cloneFrom (RepositoryService.clone_url_rs token remote_url)]) := by
      simp only [RepositoryService.clone_repository, hclone]
    exact ⟨_, _, heq, lookupDict_dictSet_self _ _ _, rfl⟩

/-- C5, witness for the amended theorem: a second clone of an existing
repository through each service. -/
theorem C5_witness :
    MultiRepoGitService.clone_repository none sampleCfg
        { existsLocally := true, cloneResult := .ok () } = ((true, none), [])
    ∧ ∃ st' rec,
        RepositoryService.clone_repository (sampleState true true "synced")
            "docs" "https://github.com/acme/docs" "repos/docs" "Docs" "acme"
            "main" none "2026-02-03T00:00:00"
            { existsLocally := true, cloneResult := .ok () }
          = (.ok (st', rec),
             [.cloneFrom (RepositoryService.clone_url_rs none
                "https://github.com/acme/docs")])
        ∧ lookupDict st'.repositories "docs" = some rec
        ∧ rec.sync_status = "never" :=
  ⟨C5_clone_idempotence_amended.1 none sampleCfg
      { existsLocally := true, cloneResult := .ok () } rfl,
   C5_clone_idempotence_amended.2 (sampleState true true "synced") "docs"
      "https://github.com/acme/docs" "repos/docs" "Docs" "acme" "main"
      "2026-02-03T00:00:00" none { existsLocally := true, cloneResult := .ok () }
      (sampleRecord true true "synced") (by decide) rfl⟩

/-! ## C6: batch failure containment -/

/-- C6: in `_sync_all_repositories`, sync is invoked for every enabled
repository in order regardless of earlier outcomes — so when syncing some
enabled repository K raises, K's exception is caught and counted in
`error_count` (the error count is exactly the number of enabled repositories
whose sync raised or returned a non-"success" status, and it is positive),
while every one of the other enabled repositories is still attempted. -/
theorem C6_batch_isolation (repos : List RepoRecord)
    (outcome : String → SyncScheduler.SchedOutcome) (K : RepoRecord)
    (m : String) (hK : K ∈ repos) (hen : K.enabled = true)
    (hraise : outcome K.id = .raises m) :
    (SyncScheduler.sync_all_repositories repos outcome).2.2
      = (repos.filter (fun r => r.enabled)).map (fun r => r.id)
    ∧ (SyncScheduler.sync_all_repositories repos outcome).2.1
      = ((repos.filter (fun r => r.enabled)).filter
          (fun r => SyncScheduler.outcomeIsError (outcome r.id))).length
    ∧ 0 < (SyncScheduler.sync_all_repositories repos outcome).2.1 := by
  refine ⟨SyncScheduler.sync_loop_invoked outcome _,
    SyncScheduler.sync_loop_error_count outcome _, ?_⟩
  rw [SyncScheduler.sync_all_repositories, SyncScheduler.sync_loop_error_count]
  have hKf : K ∈ (repos.filter (fun r => r.enabled)).filter
      (fun r => SyncScheduler.outcomeIsError (outcome r.id)) := by
    refine List.mem_filter.mpr ⟨List.mem_filter.mpr ⟨hK, hen⟩, ?_⟩
    simp [SyncScheduler.outcomeIsError, hraise]
  exact List.length_pos.mpr (List.ne_nil_of_mem hKf)

/-- A successful sync result dict, as `sync_repository` builds it. -/
def okResult (i : String) : RepositoryService.RSSyncResult :=
  { repository_id := i, status := "success",
    message := "Sync completed successfully", commits_pulled := 0,
    commits_pushed := 0, files_changed := 0 }

/-- The two-repository batch of the C6 witness: both enabled, "docs" raises,
"wiki" succeeds. -/
def batchOutcome (i : String) : SyncScheduler.SchedOutcome :=
  if i = "docs" then .raises "boom" else .result (okResult i)

/-- C6, witness: a two-repository batch where the first raises; the second
is still invoked and exactly one error is counted. -/
theorem C6_witness :
    (SyncScheduler.sync_all_repositories
        [sampleRecord true true "never",
         { sampleRecord true true "never" with id := "wiki" }]
        batchOutcome).2.2
      = (([sampleRecord true true "never",
          { sampleRecord true true "never" with id := "wiki" }].filter
            (fun r => r.enabled)).map (fun r => r.id))
    ∧ (SyncScheduler.sync_all_repositories
        [sampleRecord true true "never",
         { sampleRecord true true "never" with id := "wiki" }]
        batchOutcome).2.1
      = (([sampleRecord true true "never",
          { sampleRecord true true "never" with id := "wiki" }].filter
            (fun r => r.enabled)).filter
          (fun r => SyncScheduler.outcomeIsError (batchOutcome r.id))).length
    ∧ 0 < (SyncScheduler.sync_all_repositories
        [sampleRecord true true "never",
         { sampleRecord true true "never" with id := "wiki" }]
        batchOutcome).2.1 :=
  C6_batch_isolation _ batchOutcome (sampleRecord true true "never") "boom"
    (List.mem_cons_self _ _) rfl (by decide)

/-! ## C7: read-only repositories are pulled but never pushed -/

/-- C7: for a read-only repository that is strictly ahead, not behind, and
has no local changes, sync performs no push and reports success with zero
commits pushed — in both sync implementations.  Part one:
`MultiRepoGitService.sync_repository` (the read-only skip is a logged note,
not an error).  Part two: `RepositoryService.sync_repository` likewise skips
the push of a read-only record and returns "success" with
`commits_pushed = 0`. -/
theorem C7_read_only_skip :
    (∀ (token : Option String) (cfg : MultiRepoGitService.RepositoryConfig)
       (env : MultiRepoGitService.MRSyncEnv),
       cfg.read_only = true → env.existsLocally = true →
       env.openResult = .ok () → env.fetchResult = .ok () →
       env.trackingResult = .ok true → env.has_local_changes = false →
       env.commits_behind = 0 → 0 < env.commits_ahead →
       (MultiRepoGitService.sync_repository token cfg env).1.status = "success"
       ∧ (MultiRepoGitService.sync_repository token cfg env).1.commits_pushed = 0
       ∧ GitAction.push ∉ (MultiRepoGitService.sync_repository token cfg env).2)
    ∧ (∀ (st : RegistryState) (repo_id now : String)
         (env : RepositoryService.RSSyncEnv) (repo : RepoRecord),
         lookupDict st.repositories repo_id = some repo →
         repo.read_only = true → env.openResult = .ok () →
         env.fetchResult = .ok () → env.commits_behind = 0 →
         ∃ st' res tr,
           RepositoryService.sync_repository st repo_id now env
             = .ok (st', res, tr)
           ∧ res.status = "success" ∧ res.commits_pushed = 0
           ∧ GitAction.push ∉ tr) := by
  constructor
  · intro token cfg env hro hex hopen hfetch htrack hlocal hbehind hahead
    have hpush : MultiRepoGitService.push_phase token cfg env 0 0 [.fetch]
        = (MultiRepoGitService.success_result 0 0 0, [.fetch]) := by
      rw [MultiRepoGitService.push_phase, if_neg]
      intro hcond
      rw [hro] at hcond
      exact absurd hcond.2 (by decide)
    have heq : MultiRepoGitService.sync_repository token cfg env
        = (MultiRepoGitService.success_result 0 0 0, [.fetch]) := by
      simp only [MultiRepoGitService.sync_repository, hex, hopen, hfetch,
        htrack, hlocal, Bool.true_eq_false, if_false, Bool.false_eq_true,
        false_and, MultiRepoGitService.pull_phase, hbehind, Nat.lt_irrefl]
      exact hpush
    rw [heq]
    exact ⟨rfl, rfl, by decide⟩
  · intro st repo_id now env repo hlk hro hopen hfetch hbehind
    have heq : RepositoryService.sync_repository st repo_id now env
        = .ok (RepositoryService.sync_success_exit st repo repo_id now 0 0
            [.fetch]) := by
      simp only [RepositoryService.sync_repository, hlk, hopen, hfetch,
        hbehind, Nat.lt_irrefl, if_false, RepositoryService.sync_push_phase,
        hro, if_true]
    exact ⟨_, _, _, heq, rfl, rfl, by decide⟩

/-- C7, witness: a concrete read-only repository two commits ahead. -/
theorem C7_witness :
    ((MultiRepoGitService.sync_repository none sampleCfg
        { existsLocally := true, openResult := .ok (), fetchResult := .ok (),
          has_local_changes := false, trackingResult := .ok true,
          commits_behind := 0, commits_ahead := 2, pullResult := .ok 0,
          pushResult := .ok () }).1.status = "success"
      ∧ (MultiRepoGitService.sync_repository none sampleCfg
          { existsLocally := true, openResult := .ok (), fetchResult := .ok (),
            has_local_changes := false, trackingResult := .ok true,
            commits_behind := 0, commits_ahead := 2, pullResult := .ok 0,
            pushResult := .ok () }).1.commits_pushed = 0
      ∧ GitAction.push ∉ (MultiRepoGitService.sync_repository none sampleCfg
          { existsLocally := true, openResult := .ok (), fetchResult := .ok (),
            has_local_changes := false, trackingResult := .ok true,
            commits_behind := 0, commits_ahead := 2, pullResult := .ok 0,
            pushResult := .ok () }).2)
    ∧ ∃ st' res tr,
        RepositoryService.sync_repository (sampleState true true "never")
            "docs" "2026-02-04T00:00:00"
            { openResult := .ok (), has_local_changes := false,
              fetchResult := .ok (), commits_behind := 0, pushResult := .ok 9 }
          = .ok (st', res, tr)
        ∧ res.status = "success" ∧ res.commits_pushed = 0
        ∧ GitAction.push ∉ tr :=
  ⟨C7_read_only_skip.1 none sampleCfg _ rfl rfl rfl rfl rfl rfl rfl
      (by decide),
   C7_read_only_skip.2 (sampleState true true "never") "docs"
      "2026-02-04T00:00:00" _ (sampleRecord true true "never") (by decide)
      rfl rfl rfl rfl⟩

/-! ## C8: update touches only the allow-listed fields -/

/-- The record fields outside the allow-list of `update_repository`. -/
def frozenFields (r : RepoRecord) :
    String × String × String × String × String × Option String × String
      × Option String × String :=
  (r.id, r.owner, r.remote_url, r.local_path, r.default_branch,
   r.last_synced, r.sync_status, r.error_message, r.created_at)

theorem applyUpdate_frozen (r : RepoRecord)
    (e : RepositoryService.UpdateEntry) :
    frozenFields (RepositoryService.applyUpdate r e) = frozenFields r := by
  cases e <;> rfl

theorem foldl_applyUpdate_frozen (upd : List RepositoryService.UpdateEntry) :
    ∀ r : RepoRecord,
      frozenFields (upd.foldl RepositoryService.applyUpdate r)
        = frozenFields r := by
  induction upd with
  | nil => intro r; rfl
  | cons e rest ih =>
    intro r
    rw [List.foldl_cons, ih, applyUpdate_frozen]

/-- C8: `update_repository` on an absent id fails with the not-found error
(`ValueError` in the source; nothing is touched — the function returns only
the error).  On a present id it succeeds, and the updated record agrees with
the old one on every field outside the allow-list {enabled, read_only, name}
(id, owner, remote_url, local_path, default_branch, last_synced,
sync_status, error_message, created_at), while every other id still maps to
its previous record. -/
theorem C8_update_frame :
    (∀ (st : RegistryState) (repo_id : String)
       (upd : List RepositoryService.UpdateEntry),
       lookupDict st.repositories repo_id = none →
       RepositoryService.update_repository st repo_id upd
         = .error (.notFound repo_id))
    ∧ (∀ (st : RegistryState) (repo_id : String)
         (upd : List RepositoryService.UpdateEntry) (repo : RepoRecord),
         lookupDict st.repositories repo_id = some repo →
         ∃ st' repo',
           RepositoryService.update_repository st repo_id upd = .ok (st', repo')
           ∧ frozenFields repo' = frozenFields repo
           ∧ lookupDict st'.repositories repo_id = some repo'
           ∧ st'.store = .stored st'.repositories
           ∧ ∀ other, other ≠ repo_id →
               lookupDict st'.repositories other
                 = lookupDict st.repositories other) := by
  constructor
  · intro st repo_id upd hnone
    simp only [RepositoryService.update_repository, hnone]
  · intro st repo_id upd repo hsome
    have heq : RepositoryService.update_repository st repo_id upd
        = .ok ({ repositories := dictSet st.repositories repo_id
                  (upd.foldl RepositoryService.applyUpdate repo),
                 store := RepositoryService.save_repositories
                  (dictSet st.repositories repo_id
                    (upd.foldl RepositoryService.applyUpdate repo)) },
               upd.foldl RepositoryService.applyUpdate repo) := by
      simp only [RepositoryService.update_repository, hsome]
    refine ⟨_, _, heq, foldl_applyUpdate_frozen upd repo,
      lookupDict_dictSet_self _ _ _, rfl,
      fun other hother => lookupDict_dictSet_other _ _ _ _ hother⟩

/-- C8, witness: a present-id update (flipping `enabled`, attempting a
non-allow-listed key) and an absent-id update. -/
theorem C8_witness :
    RepositoryService.update_repository (sampleState true true "never") "wiki"
        [.setEnabled false] = .error (.notFound "wiki")
    ∧ ∃ st' repo',
        RepositoryService.update_repository (sampleState true true "never")
            "docs" [.setEnabled false, .otherKey "remote_url"]
          = .ok (st', repo')
        ∧ frozenFields repo' = frozenFields (sampleRecord true true "never")
        ∧ lookupDict st'.repositories "docs" = some repo'
        ∧ st'.store = .stored st'.repositories
        ∧ ∀ other, other ≠ "docs" →
            lookupDict st'.repositories other
              = lookupDict (sampleState true true "never").repositories other :=
  ⟨C8_update_frame.1 (sampleState true true "never") "wiki"
      [.setEnabled false] (by decide),
   C8_update_frame.2 (sampleState true true "never") "docs"
      [.setEnabled false, .otherKey "remote_url"]
      (sampleRecord true true "never") (by decide)⟩

/-! ## C9: freshly cloned repositories are disabled and read-only -/

/-- On a record whose `read_only` is true, `sync_repository` never pushes:
every path (open failure, fetch failure of either kind, or success) returns
a result with `commits_pushed = 0` and no push in the trace. -/
theorem rs_sync_read_only_no_push (st : RegistryState) (repo_id now : String)
    (env : RepositoryService.RSSyncEnv) (repo : RepoRecord)
    (hlk : lookupDict st.repositories repo_id = some repo)
    (hro : repo.read_only = true) :
    ∃ out, RepositoryService.sync_repository st repo_id now env = .ok out
      ∧ out.2.1.commits_pushed = 0 ∧ GitAction.push ∉ out.2.2 := by
  have hpush : ∀ pulled trace,
      RepositoryService.sync_push_phase st repo repo_id now env pulled trace
        = RepositoryService.sync_success_exit st repo repo_id now pulled 0
            trace := by
    intro pulled trace
    simp only [RepositoryService.sync_push_phase, hro, if_true]
  simp only [RepositoryService.sync_repository, hlk]
  cases hopen : env.openResult with
  | gitError m =>
    exact ⟨_, rfl, rfl, (by decide : GitAction.push ∉ ([] : List GitAction))⟩
  | exn m =>
    exact ⟨_, rfl, rfl, (by decide : GitAction.push ∉ ([] : List GitAction))⟩
  | ok u =>
    cases hfetch : env.fetchResult with
    | exn m =>
      exact ⟨_, rfl, rfl, (by decide : GitAction.push ∉ [GitAction.fetch])⟩
    | gitError m =>
      refine ⟨_, rfl, ?_, ?_⟩
      · rw [hpush]; rfl
      · rw [hpush]
        exact (by decide : GitAction.push ∉ [GitAction.fetch])
    | ok u2 =>
      by_cases hbehind : 0 < env.commits_behind
      · refine ⟨_, rfl, ?_, ?_⟩
        · simp only [if_pos hbehind, hpush]; rfl
        · simp only [if_pos hbehind, hpush]
          exact (by decide : GitAction.push ∉ [GitAction.fetch, .mergeRemote])
      · refine ⟨_, rfl, ?_, ?_⟩
        · simp only [if_neg hbehind, hpush]; rfl
        · simp only [if_neg hbehind, hpush]
          exact (by decide : GitAction.push ∉ [GitAction.fetch])

/-- C9: a repository registered through `clone_repository` is created with
`enabled = false` and `read_only = true` (the defaults of `add_repository`,
which the clone path does not override).  Hence the fresh record is excluded
by the scheduler's `enabled` filter — the batch run does not sync it — and
even a direct sync of that record never pushes: every sync outcome carries
`commits_pushed = 0` and no push action. -/
theorem C9_fresh_clone_disabled (st : RegistryState)
    (repo_id remote_url local_path name owner default_branch now : String)
    (token : Option String) (env : RepositoryService.RSCloneEnv)
    (hclone : env.cloneResult = .ok ()) :
    ∃ st' rec,
      (RepositoryService.clone_repository st repo_id remote_url local_path
          name owner default_branch token now env).1 = .ok (st', rec)
      ∧ rec.enabled = false ∧ rec.read_only = true
      ∧ rec ∉ (st'.repositories.map Prod.snd).filter (fun r => r.enabled)
      ∧ ∀ (now2 : String) (envS : RepositoryService.RSSyncEnv),
          ∃ out, RepositoryService.sync_repository st' repo_id now2 envS
              = .ok out
            ∧ out.2.1.commits_pushed = 0 ∧ GitAction.push ∉ out.2.2 := by
  have heq : (RepositoryService.clone_repository st repo_id remote_url
      local_path name owner default_branch token now env).1
      = .ok (RepositoryService.add_repository st repo_id name owner remote_url
          local_path false true default_branch now) := by
    simp only [RepositoryService.clone_repository, hclone]
  refine ⟨_, _, heq, rfl, rfl, ?_, ?_⟩
  · intro hmem
    have := (List.mem_filter.mp hmem).2
    simp at this
  · intro now2 envS
    exact rs_sync_read_only_no_push _ repo_id now2 envS _
      (lookupDict_dictSet_self _ _ _) rfl

/-- C9, witness: cloning into an empty registry. -/
theorem C9_witness :
    ∃ st' rec,
      (RepositoryService.clone_repository (RepositoryService.init .missing)
          "acme-wiki" "https://github.com/acme/wiki" "repos/acme-wiki" "wiki"
          "acme" "main" none "2026-02-05T00:00:00"
          { existsLocally := false, cloneResult := .ok () }).1 = .ok (st', rec)
      ∧ rec.enabled = false ∧ rec.read_only = true
      ∧ rec ∉ (st'.repositories.map Prod.snd).filter (fun r => r.enabled)
      ∧ ∀ (now2 : String) (envS : RepositoryService.RSSyncEnv),
          ∃ out, RepositoryService.sync_repository st' "acme-wiki" now2 envS
              = .ok out
            ∧ out.2.1.commits_pushed = 0 ∧ GitAction.push ∉ out.2.2 :=
  C9_fresh_clone_disabled (RepositoryService.init .missing) "acme-wiki"
    "https://github.com/acme/wiki" "repos/acme-wiki" "wiki" "acme" "main"
    "2026-02-05T00:00:00" none { existsLocally := false, cloneResult := .ok () }
    rfl

/-! ## C10: a corrupt backing store yields the empty registry -/

/-- C10: when the backing store exists but cannot be read or parsed, the
constructor does not raise (the embedded `init` is total): it loads the
empty registry and leaves the file untouched; the next mutating operation
(here `add_repository`) rewrites the backing store in full with the
registry that grew out of that empty state. -/
theorem C10_corrupt_store_recovery :
    (RepositoryService.init .corrupt).repositories = []
    ∧ (RepositoryService.init .corrupt).store = FileState.corrupt
    ∧ ∀ (repo_id name owner remote_url local_path default_branch now : String)
        (enabled read_only : Bool),
        ∃ rec,
          RepositoryService.add_repository (RepositoryService.init .corrupt)
              repo_id name owner remote_url local_path enabled read_only
              default_branch now
            = ({ repositories := [(repo_id, rec)],
                 store := .stored [(repo_id, rec)] }, rec) := by
  refine ⟨rfl, rfl, fun repo_id name owner remote_url local_path
    default_branch now enabled read_only => ⟨_, rfl⟩⟩
